import Mathlib

/-!
Shallow embedding of the trajectory logging and replay subsystem of
Open-AutoGLM: the append-only session log writer
(`phone_agent/trajectory_logger.py`) and the reader/renderer
(`web_ui/app.py`).  Python dicts parsed from JSON are modelled by the
`Json` inductive; the file system is modelled explicitly (log files as
lists of physical lines, image files as a write-ordered association
list).  Machine-level failure points that the Python code guards with
try/except (image decode/encode failure) are modelled by explicit
boolean flags on the inputs; JSON text that fails `json.loads` is
modelled by a distinguished `corrupt` line constructor.
-/

/-- JSON values as returned by Python's `json.loads` (numbers are
modelled as integers; no float appears in any record this subsystem
writes or inspects). -/
inductive Json where
  | null
  | bool (b : Bool)
  | num (n : Int)
  | str (s : String)
  | arr (elts : List Json)
  | obj (fields : List (String × Json))

mutual

/-- Decidable equality on `Json`, by structural recursion so that it
evaluates inside the kernel. -/
def Json.decEq : (a b : Json) → Decidable (a = b)
  | .null, .null => isTrue rfl
  | .bool x, .bool y =>
    if h : x = y then isTrue (by rw [h])
    else isFalse (fun hh => by injection hh; contradiction)
  | .num x, .num y =>
    if h : x = y then isTrue (by rw [h])
    else isFalse (fun hh => by injection hh; contradiction)
  | .str x, .str y =>
    if h : x = y then isTrue (by rw [h])
    else isFalse (fun hh => by injection hh; contradiction)
  | .arr xs, .arr ys =>
    match Json.decEqList xs ys with
    | isTrue h => isTrue (by rw [h])
    | isFalse h => isFalse (fun hh => by injection hh; contradiction)
  | .obj xs, .obj ys =>
    match Json.decEqFields xs ys with
    | isTrue h => isTrue (by rw [h])
    | isFalse h => isFalse (fun hh => by injection hh; contradiction)
  | .null, .bool _ => isFalse (fun h => Json.noConfusion h)
  | .null, .num _ => isFalse (fun h => Json.noConfusion h)
  | .null, .str _ => isFalse (fun h => Json.noConfusion h)
  | .null, .arr _ => isFalse (fun h => Json.noConfusion h)
  | .null, .obj _ => isFalse (fun h => Json.noConfusion h)
  | .bool _, .null => isFalse (fun h => Json.noConfusion h)
  | .bool _, .num _ => isFalse (fun h => Json.noConfusion h)
  | .bool _, .str _ => isFalse (fun h => Json.noConfusion h)
  | .bool _, .arr _ => isFalse (fun h => Json.noConfusion h)
  | .bool _, .obj _ => isFalse (fun h => Json.noConfusion h)
  | .num _, .null => isFalse (fun h => Json.noConfusion h)
  | .num _, .bool _ => isFalse (fun h => Json.noConfusion h)
  | .num _, .str _ => isFalse (fun h => Json.noConfusion h)
  | .num _, .arr _ => isFalse (fun h => Json.noConfusion h)
  | .num _, .obj _ => isFalse (fun h => Json.noConfusion h)
  | .str _, .null => isFalse (fun h => Json.noConfusion h)
  | .str _, .bool _ => isFalse (fun h => Json.noConfusion h)
  | .str _, .num _ => isFalse (fun h => Json.noConfusion h)
  | .str _, .arr _ => isFalse (fun h => Json.noConfusion h)
  | .str _, .obj _ => isFalse (fun h => Json.noConfusion h)
  | .arr _, .null => isFalse (fun h => Json.noConfusion h)
  | .arr _, .bool _ => isFalse (fun h => Json.noConfusion h)
  | .arr _, .num _ => isFalse (fun h => Json.noConfusion h)
  | .arr _, .str _ => isFalse (fun h => Json.noConfusion h)
  | .arr _, .obj _ => isFalse (fun h => Json.noConfusion h)
  | .obj _, .null => isFalse (fun h => Json.noConfusion h)
  | .obj _, .bool _ => isFalse (fun h => Json.noConfusion h)
  | .obj _, .num _ => isFalse (fun h => Json.noConfusion h)
  | .obj _, .str _ => isFalse (fun h => Json.noConfusion h)
  | .obj _, .arr _ => isFalse (fun h => Json.noConfusion h)
termination_by structural a _ => a

/-- Decidable equality on lists of `Json`. -/
def Json.decEqList : (xs ys : List Json) → Decidable (xs = ys)
  | [], [] => isTrue rfl
  | [], _ :: _ => isFalse (fun h => List.noConfusion h)
  | _ :: _, [] => isFalse (fun h => List.noConfusion h)
  | x :: xs, y :: ys =>
    match Json.decEq x y, Json.decEqList xs ys with
    | isTrue h1, isTrue h2 => isTrue (by rw [h1, h2])
    | isFalse h1, _ => isFalse (fun h => by injection h with hh _; exact h1 hh)
    | _, isFalse h2 => isFalse (fun h => by injection h with _ ht; exact h2 ht)
termination_by structural xs _ => xs

/-- Decidable equality on JSON object field lists. -/
def Json.decEqFields : (xs ys : List (String × Json)) → Decidable (xs = ys)
  | [], [] => isTrue rfl
  | [], _ :: _ => isFalse (fun h => List.noConfusion h)
  | _ :: _, [] => isFalse (fun h => List.noConfusion h)
  | (k1, v1) :: xs, (k2, v2) :: ys =>
    match instDecidableEqString k1 k2, Json.decEq v1 v2, Json.decEqFields xs ys with
    | isTrue hk, isTrue hv, isTrue ht => isTrue (by rw [hk, hv, ht])
    | isFalse hk, _, _ => isFalse (fun h => by injection h with hh _; injection hh; contradiction)
    | _, isFalse hv, _ => isFalse (fun h => by injection h with hh _; injection hh; contradiction)
    | _, _, isFalse ht => isFalse (fun h => by injection h with _ ht2; exact ht ht2)
termination_by structural xs _ => xs

end

instance : DecidableEq Json := Json.decEq

/-- One physical line of a `.jsonl` log file: blank (skipped by the
readers), unparseable by `json.loads` (`corrupt`), or a parsed JSON
value. -/
inductive LogLine where
  | blank
  | corrupt
  | line (j : Json)
deriving DecidableEq

/-- A raster image as handled by PIL.  Only the pixel dimensions are
observable by this subsystem; `savable` models whether the
RGB-convert / JPEG-encode / disk-write sequence in `_save_image`
succeeds for this image (the Python code catches any exception there). -/
structure Img where
  width : Nat
  height : Nat
  savable : Bool
deriving DecidableEq

/-- Long edge of an image. -/
def Img.longSide (i : Img) : Nat := max i.width i.height

/-- The file system visible to the subsystem: trace files (path to
list of physical lines, `none` when the file does not exist) and image
files in write order (path, decoded content). -/
structure FS where
  traces : String → Option (List LogLine)
  images : List (String × Img)

/-- File system with no trace files and no image files. -/
def FS.empty : FS := { traces := fun _ => none, images := [] }

/-- Appending one line to a trace file, creating it when missing
(Python `open(path, 'a')` followed by one `write`). -/
def FS.appendLine (fs : FS) (path : String) (l : LogLine) : FS :=
  { fs with
    traces := fun p =>
      if p = path then some (((fs.traces path).getD []) ++ [l]) else fs.traces p }

/-- Writing one image file (`open(path, "wb")`; `write`). -/
def FS.writeImage (fs : FS) (path : String) (img : Img) : FS :=
  { fs with images := fs.images ++ [(path, img)] }

/-- Relative path join, `os.path.join(a, b)` for the relative names
this code builds. -/
def pathJoin (a b : String) : String := a ++ "/" ++ b

/-- Mutable state of a `TrajectoryLogger` instance
(`trajectory_logger.py`, `__init__`). -/
structure LoggerSt where
  log_dir : String
  image_dir : String
  session_id : Option String
  log_file : Option String
  step_count : Nat
deriving DecidableEq

/-- `TrajectoryLogger.DEFAULT_LOG_DIR`. -/
def DEFAULT_LOG_DIR : String :=
  "running_log/server_log/os-copilot-local-eval-logs/traces"

/-- `TrajectoryLogger.DEFAULT_IMAGE_DIR`. -/
def DEFAULT_IMAGE_DIR : String :=
  "running_log/server_log/os-copilot-local-eval-logs/images"

/-- The log entry envelope built by `_write_log`: wraps a message dict
with the session id and a wall-clock timestamp string
(`json.dumps(None)` renders a missing session id as JSON null). -/
def logEntry (session_id : Option String) (timestamp : String) (message : Json) : Json :=
  .obj [("session_id", match session_id with | some s => .str s | none => .null),
        ("timestamp", .str timestamp),
        ("message", message)]

/-- `TrajectoryLogger._write_log`: no-op when `self.log_file` is unset,
otherwise appends one serialized line to the log file.  Timestamps are
inputs of the model (wall clock). -/
def _write_log (st : LoggerSt) (fs : FS) (ts : String) (message_dict : Json) : FS :=
  match st.log_file with
  | none => fs
  | some path => fs.appendLine path (.line (logEntry st.session_id ts message_dict))

/-- The `config_message` dict built by `start_session`
(`extra_info or \x7b\x7d` yields the empty dict when the argument is
absent or empty). -/
def config_message (task model_name : String) (extra_info : Option Json) : Json :=
  .obj [("log_type", .str "session_start"),
        ("task", .str task),
        ("task_type", .str "autoglm"),
        ("model_config", .obj [("model_name", .str model_name)]),
        ("extra_info", extra_info.getD (.obj []))]

/-- `TrajectoryLogger.start_session`: allocates the session (the fresh
`uuid4` string is an input of the model), derives the log file path,
resets the step counter and writes the session_start record.  Returns
the session id with the updated state and file system. -/
def start_session (st : LoggerSt) (fs : FS) (sid task model_name : String)
    (extra_info : Option Json) (ts : String) : String × LoggerSt × FS :=
  let st' : LoggerSt :=
    { st with
      session_id := some sid,
      log_file := some (pathJoin st.log_dir (sid ++ ".jsonl")),
      step_count := 0 }
  (sid, st', _write_log st' fs ts (config_message task model_name extra_info))

/-- `TrajectoryLogger._save_image`: converts to RGB, JPEG-encodes at
quality 85 (both dimension-preserving) and writes
`image_dir/\x7bsession_id\x7d_\x7bimage_name\x7d.jpeg`.  Any failure in
that sequence (modelled by `savable = false`) is caught and yields the
empty path with no file written. -/
def _save_image (st : LoggerSt) (fs : FS) (image : Img) (image_name : String) :
    String × FS :=
  match st.session_id with
  | none => ("", fs)
  | some sid =>
    if image.savable then
      let image_path := pathJoin st.image_dir (sid ++ "_" ++ image_name ++ ".jpeg")
      (image_path, fs.writeImage image_path image)
    else ("", fs)

/-- Screenshot argument of `log_step`: absent, a PIL image, or a
base64-encoded string.  For the base64 form, `decodes` models whether
prefix-stripping, `base64.b64decode` and `Image.open` succeed, and
`img` is the decoded image. -/
inductive Screenshot where
  | none
  | pil (img : Img)
  | b64 (decodes : Bool) (img : Img)
deriving DecidableEq

/-- Arguments of one `log_step` call (the timestamp is the wall-clock
reading taken inside `_write_log` during that call). -/
structure StepInput where
  screenshot : Screenshot
  thinking : String
  action : Option (List (String × Json))
  action_type : String
  user_comment : String
  timestamp : String
deriving DecidableEq

/-- Replacing the value of an existing key in place, else appending —
the effect of a later duplicate key in a Python dict display. -/
def updateEntry : List (String × Json) → String → Json → List (String × Json)
  | [], k, v => [(k, v)]
  | (k', v') :: rest, k, v =>
    if k' = k then (k, v) :: rest else (k', v') :: updateEntry rest k v

/-- Python dict-display merge `\x7b"cot": ..., "action_type": ..., **extra\x7d`:
keys of `extra` override in place, new keys append in order. -/
def pyDictMerge (base extra : List (String × Json)) : List (String × Json) :=
  extra.foldl (fun acc kv => updateEntry acc kv.1 kv.2) base

/-- The `log_message` dict built by `log_step`. -/
def step_message (image_path : String) (inp : StepInput) : Json :=
  .obj [("environment", .obj [("image", .str image_path),
                              ("user_comment", .str inp.user_comment)]),
        ("action", .obj (pyDictMerge
          [("cot", .str inp.thinking), ("action_type", .str inp.action_type)]
          (inp.action.getD [])))]

/-- `TrajectoryLogger.log_step`: no-op when no session is active;
otherwise increments the step counter, saves the screenshot (the
base64 branch catches decode failures, leaving the path empty) and
appends exactly one step record. -/
def log_step (st : LoggerSt) (fs : FS) (inp : StepInput) : LoggerSt × FS :=
  match st.session_id with
  | none => (st, fs)
  | some _ =>
    let st' : LoggerSt := { st with step_count := st.step_count + 1 }
    let saved : String × FS :=
      match inp.screenshot with
      | .none => ("", fs)
      | .pil img => _save_image st' fs img ("step_" ++ toString st'.step_count)
      | .b64 decodes img =>
        if decodes then _save_image st' fs img ("step_" ++ toString st'.step_count)
        else ("", fs)
    (st', _write_log st' saved.2 inp.timestamp (step_message saved.1 inp))

/-- The session_end message dict built by `end_session`. -/
def end_message (final_message : String) : Json :=
  .obj [("log_type", .str "session_end"), ("message", .str final_message)]

/-- `TrajectoryLogger.end_session`: no-op when no session is active;
otherwise appends a session_end record when `final_message` is
non-empty (Python truthiness of the string) and clears the in-memory
session state. -/
def end_session (st : LoggerSt) (fs : FS) (final_message ts : String) :
    LoggerSt × FS :=
  match st.session_id with
  | none => (st, fs)
  | some _ =>
    let fs' := if final_message = "" then fs else _write_log st fs ts (end_message final_message)
    ({ st with session_id := none, log_file := none, step_count := 0 }, fs')

/-- The line-reading loop of `read_session_logs`: blank lines are
skipped; the first line on which `json.loads` raises aborts the loop
(the surrounding `except` logs a warning), so the records accumulated
up to that point are what the method returns. -/
def readLines : List LogLine → List Json
  | [] => []
  | .blank :: rest => readLines rest
  | .corrupt :: _ => []
  | .line j :: rest => j :: readLines rest

/-- `TrajectoryLogger.read_session_logs`: returns `[]` when the log
file does not exist, else the records recovered by the reading loop. -/
def read_session_logs (fs : FS) (log_dir session_id : String) : List Json :=
  match fs.traces (pathJoin log_dir (session_id ++ ".jsonl")) with
  | none => []
  | some lines => readLines lines

/-- Stable insertion of a `(session_id, mtime)` entry into a list that
is sorted by mtime descending: the entry goes in front of the first
element whose mtime is not larger, so equal mtimes keep their
original relative order — the behavior of Python's stable
`list.sort(key=mtime, reverse=True)`. -/
def insortDesc (x : String × Nat) : List (String × Nat) → List (String × Nat)
  | [] => [x]
  | y :: ys => if y.2 ≤ x.2 then x :: y :: ys else y :: insortDesc x ys

/-- Stable descending sort by mtime (insertion sort; agrees with any
stable sort, hence with Python's). -/
def sortByMtimeDesc : List (String × Nat) → List (String × Nat)
  | [] => []
  | x :: xs => insortDesc x (sortByMtimeDesc xs)

/-- `TrajectoryLogger.get_available_sessions`: `none` models a missing
log directory; otherwise the directory listing is the glob result, as
`(session_id, mtime)` pairs in glob order (the session id is the file
base name with the `.jsonl` suffix removed).  Sorts by mtime
descending and keeps the first `limit` ids.  The near-identical copy
`get_available_sessions` in `web_ui/app.py` is this function at
`limit = 20`. -/
def get_available_sessions (dir : Option (List (String × Nat))) (limit : Nat) :
    List String :=
  match dir with
  | none => []
  | some files => ((sortByMtimeDesc files).take limit).map Prod.fst

/-- Whether some physical line of the file fails `json.loads` (blank
lines are never fed to the parser). -/
def hasCorrupt : List LogLine → Bool
  | [] => false
  | .corrupt :: _ => true
  | _ :: rest => hasCorrupt rest

/-- `load_session_logs` in `web_ui/app.py`: same path and line loop as
`read_session_logs`, but the whole loop body — including the `logs`
accumulator — sits inside one `try` whose handler returns `[]`, so a
single unparseable line empties the entire result.  The guard
`if not session_id` returns `[]` for the empty id. -/
def load_session_logs (fs : FS) (session_id : String) : List Json :=
  if session_id = "" then []
  else
    match fs.traces (pathJoin DEFAULT_LOG_DIR (session_id ++ ".jsonl")) with
    | none => []
    | some lines => if hasCorrupt lines then [] else readLines lines

/-- `long_side_resize` in `web_ui/app.py`: downscale so the longest
edge is exactly `long_side` when it exceeds it, preserving aspect
ratio with the short edge rounded down (`int` truncation of the exact
ratio); images already within the bound are returned unchanged.
`convert("RGB")` and `Image.resize` preserve the `savable` modelling
flag. -/
def long_side_resize (image : Img) (long_side : Nat) : Img :=
  if max image.width image.height > long_side then
    if image.width ≥ image.height then
      { image with width := long_side,
                   height := image.height * long_side / image.width }
    else
      { image with height := long_side,
                   width := image.width * long_side / image.height }
  else image

/-- `image_to_base64` in `web_ui/app.py`: JPEG re-encode at quality 85
into a data URL.  Encoding preserves the pixel dimensions, and the
data URL is represented here by the image it embeds. -/
def image_to_base64 (image : Img) : Img := image

/-- Rendered content of one chatbot message, keeping the data the
format strings of `logs_to_chatbot_messages` interpolate: the header
(task and model name, as found or substituted), the per-step user
message (step number and optional embedded screenshot) and the
per-step assistant message (step number, chain of thought, action type
and the remaining action fields). -/
inductive ChatContent where
  | header (task model_name : Json)
  | stepUser (n : Nat) (image : Option Img)
  | stepAssistant (n : Nat) (thought action_type : Json)
      (action_detail : List (String × Json))
deriving DecidableEq

/-- One Gradio chatbot message: a role and rendered content. -/
structure ChatMsg where
  role : String
  content : ChatContent
deriving DecidableEq

/-- The body of the per-record loop of `logs_to_chatbot_messages`.
Returns `none` when the record is skipped: in Python the `.get` chain
raises `AttributeError` as soon as the record, its `message`, its
`environment` or its `action` is not a dict, and the surrounding
`try/except/continue` drops the record (every such raise happens
before the first `messages.append`).  Image loading is guarded by its
own inner `try`: only a non-empty string path naming an existing,
decodable file yields an embedded image (any other value fails the
truthiness test, the `os.path.exists` check, or `Image.open`). -/
def record_messages (fs : FS) (idx : Nat) (log : Json) : Option (List ChatMsg) :=
  match log with
  | .obj logFields =>
    match (logFields.lookup "message").getD (.obj []) with
    | .obj msgFields =>
      match (msgFields.lookup "environment").getD (.obj []),
            (msgFields.lookup "action").getD (.obj []) with
      | .obj envFields, .obj actFields =>
        let image_url := (envFields.lookup "image").getD (.str "")
        let thought := (actFields.lookup "cot").getD (.str "")
        let action_type := (actFields.lookup "action_type").getD (.str "")
        let img_content : Option Img :=
          match image_url with
          | .str s =>
            if s = "" then none
            else
              match fs.images.lookup s with
              | some image => some (image_to_base64 (long_side_resize image 800))
              | none => none
          | _ => none
        let action_detail := actFields.filter (fun kv => kv.1 ≠ "cot")
        some [{ role := "user", content := .stepUser (idx + 1) img_content },
              { role := "assistant",
                content := .stepAssistant (idx + 1) thought action_type action_detail }]
      | _, _ => none
    | _ => none
  | _ => none

/-- `logs_to_chatbot_messages` in `web_ui/app.py`.  `none` models an
uncaught exception: the header extraction runs outside any `try`, so a
first record on which the `.get` chain raises aborts the whole
conversion.  An empty log list yields an empty message list.  The
first record is always treated as the header, whatever its tag; absent
`task` or `model_config.model_name` fall back to the placeholder
strings.  Each subsequent record is rendered by the loop body in file
order with 1-based position numbering; skipped records contribute no
messages but still consume their position. -/
def logs_to_chatbot_messages (fs : FS) (logs : List Json) : Option (List ChatMsg) :=
  match logs with
  | [] => some []
  | config_log :: env_act_logs =>
    match config_log with
    | .obj configFields =>
      match (configFields.lookup "message").getD (.obj []) with
      | .obj msgFields =>
        let task := (msgFields.lookup "task").getD (.str "未知任务")
        match (msgFields.lookup "model_config").getD (.obj []) with
        | .obj mcFields =>
          let model_name := (mcFields.lookup "model_name").getD (.str "未知模型")
          some ({ role := "assistant", content := .header task model_name } ::
            env_act_logs.enum.flatMap
              (fun pr => (record_messages fs pr.1 pr.2).getD []))
        | _ => none
      | _ => none
    | _ => none

/-- Running a sequence of `log_step` calls. -/
def runSteps (st : LoggerSt) (fs : FS) : List StepInput → LoggerSt × FS
  | [] => (st, fs)
  | inp :: rest =>
    let r := log_step st fs inp
    runSteps r.1 r.2 rest

/-- The full scenario of spec property 1: `start_session`, a sequence
of `log_step` calls, `end_session`.  Returns the session id with the
final state and file system. -/
def runFullSession (st0 : LoggerSt) (fs0 : FS) (sid task model_name : String)
    (extra_info : Option Json) (ts0 : String) (inputs : List StepInput)
    (final_message tsEnd : String) : String × LoggerSt × FS :=
  let r := start_session st0 fs0 sid task model_name extra_info ts0
  let s := runSteps r.2.1 r.2.2 inputs
  let e := end_session s.1 s.2 final_message tsEnd
  (r.1, e.1, e.2)

/-- The image a `log_step` call persists, when any: present for a PIL
screenshot that encodes and saves, or a base64 screenshot that decodes
and saves. -/
def savedImage? : Screenshot → Option Img
  | .none => none
  | .pil img => if img.savable then some img else none
  | .b64 decodes img => if decodes && img.savable then some img else none

/-- Path of the image file saved for step `n` of a session: the
deterministic scheme image_dir/sid_step_n.jpeg. -/
def savedImagePath (image_dir sid : String) (n : Nat) : String :=
  pathJoin image_dir (sid ++ "_" ++ ("step_" ++ toString n) ++ ".jpeg")

/-- The `image` field a step record carries: the saved path on
success, the empty string when the screenshot is absent or fails. -/
def stepImageResult (image_dir sid : String) (n : Nat) (shot : Screenshot) : String :=
  match savedImage? shot with
  | some _ => savedImagePath image_dir sid n
  | none => ""

/-- The full step record `log_step` appends as step number `n`. -/
def stepRecord (image_dir sid : String) (n : Nat) (inp : StepInput) : Json :=
  logEntry (some sid) inp.timestamp
    (step_message (stepImageResult image_dir sid n inp.screenshot) inp)

/-- Step records for a run of `log_step` calls starting from step
counter `k`. -/
def stepRecords (image_dir sid : String) (k : Nat) : List StepInput → List Json
  | [] => []
  | inp :: rest => stepRecord image_dir sid (k + 1) inp :: stepRecords image_dir sid (k + 1) rest

/-- The same records as physical log lines. -/
def stepLines (image_dir sid : String) (k : Nat) : List StepInput → List LogLine
  | [] => []
  | inp :: rest =>
    LogLine.line (stepRecord image_dir sid (k + 1) inp) :: stepLines image_dir sid (k + 1) rest

/-- Image files written by a run of `log_step` calls starting from
step counter `k`, in write order: one file per step whose screenshot
saves, named by the step's counter value; failed or absent screenshots
contribute no file but still consume a counter value. -/
def stepImages (image_dir sid : String) (k : Nat) : List StepInput → List (String × Img)
  | [] => []
  | inp :: rest =>
    (match savedImage? inp.screenshot with
     | some img => [(savedImagePath image_dir sid (k + 1), img)]
     | none => []) ++ stepImages image_dir sid (k + 1) rest

/-- Step indices of the image files written by a run starting from
counter `k`. -/
def stepImageIndices (k : Nat) : List StepInput → List Nat
  | [] => []
  | inp :: rest =>
    (match savedImage? inp.screenshot with
     | some _ => [k + 1]
     | none => []) ++ stepImageIndices (k + 1) rest

/-- The session_start record `start_session` writes. -/
def sessionStartRecord (sid task model_name : String) (extra_info : Option Json)
    (ts : String) : Json :=
  logEntry (some sid) ts (config_message task model_name extra_info)

/-- The session_end record `end_session` writes. -/
def sessionEndRecord (sid final_message ts : String) : Json :=
  logEntry (some sid) ts (end_message final_message)

/-- Reading loop as the spec sentence describes it: a line that fails
to parse is skipped and the loop continues, so every valid line of the
file is returned.  Used to compare the claimed behavior with the
implemented `readLines`. -/
def readLinesSkipping : List LogLine → List Json
  | [] => []
  | .blank :: rest => readLinesSkipping rest
  | .corrupt :: rest => readLinesSkipping rest
  | .line j :: rest => j :: readLinesSkipping rest

/-- Whether the header extraction of `logs_to_chatbot_messages` runs
without raising on this first record: the record, its `message` and
its `model_config` values are dicts wherever present. -/
def headerRenderable : Json → Bool
  | .obj fields =>
    match (fields.lookup "message").getD (.obj []) with
    | .obj msgFields =>
      match (msgFields.lookup "model_config").getD (.obj []) with
      | .obj _ => true
      | _ => false
    | _ => false
  | _ => false

/-- Whether the per-record loop body renders this record rather than
skipping it: the record, its `message`, its `environment` and its
`action` values are dicts wherever present. -/
def stepRenderable : Json → Bool
  | .obj fields =>
    match (fields.lookup "message").getD (.obj []) with
    | .obj msgFields =>
      (match (msgFields.lookup "environment").getD (.obj []) with
       | .obj _ => true
       | _ => false)
      && (match (msgFields.lookup "action").getD (.obj []) with
       | .obj _ => true
       | _ => false)
    | _ => false
  | _ => false

/-- Task the header displays: `message.task`, with the placeholder
for an absent key. -/
def headerTask : Json → Json
  | .obj fields =>
    match (fields.lookup "message").getD (.obj []) with
    | .obj msgFields => (msgFields.lookup "task").getD (.str "未知任务")
    | _ => .null
  | _ => .null

/-- Model name the header displays: `message.model_config.model_name`,
with the placeholder for an absent key. -/
def headerModel : Json → Json
  | .obj fields =>
    match (fields.lookup "message").getD (.obj []) with
    | .obj msgFields =>
      match (msgFields.lookup "model_config").getD (.obj []) with
      | .obj mcFields => (mcFields.lookup "model_name").getD (.str "未知模型")
      | _ => .null
    | _ => .null
  | _ => .null

/-- Action dict of a step record (empty when absent). -/
def stepAction : Json → List (String × Json)
  | .obj fields =>
    match (fields.lookup "message").getD (.obj []) with
    | .obj msgFields =>
      match (msgFields.lookup "action").getD (.obj []) with
      | .obj actFields => actFields
      | _ => []
    | _ => []
  | _ => []

/-- Chain-of-thought text a step view displays. -/
def stepThought (r : Json) : Json :=
  ((stepAction r).lookup "cot").getD (.str "")

/-- Action type a step view displays. -/
def stepActionType (r : Json) : Json :=
  ((stepAction r).lookup "action_type").getD (.str "")

/-- Structured action dump of a step view: the action dict minus the
`cot` key. -/
def stepDetail (r : Json) : List (String × Json) :=
  (stepAction r).filter (fun kv => kv.1 ≠ "cot")

/-- Environment image field of a step record. -/
def stepEnvImage : Json → Json
  | .obj fields =>
    match (fields.lookup "message").getD (.obj []) with
    | .obj msgFields =>
      match (msgFields.lookup "environment").getD (.obj []) with
      | .obj envFields => (envFields.lookup "image").getD (.str "")
      | _ => .null
    | _ => .null
  | _ => .null

/-- Screenshot a step view embeds: the stored path resolved against
the image files, downscaled to a 800-pixel long edge and re-encoded;
absent when the path is empty, not a string, or names no decodable
file. -/
def stepShownImage (fs : FS) (r : Json) : Option Img :=
  match stepEnvImage r with
  | .str s =>
    if s = "" then none
    else
      match fs.images.lookup s with
      | some image => some (image_to_base64 (long_side_resize image 800))
      | none => none
  | _ => none

/-- The two chatbot messages a rendered record at position `idx`
(0-based) produces: a user message with the step number and optional
screenshot, and an assistant message with the step number, reasoning
and action fields. -/
def stepView (fs : FS) (idx : Nat) (r : Json) : List ChatMsg :=
  [{ role := "user", content := .stepUser (idx + 1) (stepShownImage fs r) },
   { role := "assistant",
     content := .stepAssistant (idx + 1) (stepThought r) (stepActionType r) (stepDetail r) }]

lemma stepRecords_length (imd sid : String) :
    ∀ (inputs : List StepInput) (k : Nat),
      (stepRecords imd sid k inputs).length = inputs.length := by
  intro inputs
  induction inputs with
  | nil => intro k; rfl
  | cons inp rest ih => intro k; simp [stepRecords, ih]

lemma readLines_stepLines (imd sid : String) :
    ∀ (inputs : List StepInput) (k : Nat) (ls : List LogLine),
      readLines (stepLines imd sid k inputs ++ ls) =
        stepRecords imd sid k inputs ++ readLines ls := by
  intro inputs
  induction inputs with
  | nil => intro k ls; rfl
  | cons inp rest ih => intro k ls; simp [stepLines, stepRecords, readLines, ih]

lemma lookup_append_of_none {α : Type} [BEq α] {β : Type} (k : α)
    (l l' : List (α × β)) (h : l.lookup k = none) :
    (l ++ l').lookup k = l'.lookup k := by
  induction l with
  | nil => rfl
  | cons x xs ih =>
    rw [List.cons_append] at *
    rw [List.lookup] at h ⊢
    cases hk : (k == x.1) with
    | true => rw [hk] at h; exact Option.noConfusion h
    | false => rw [hk] at h; exact ih h

lemma appendLine_traces_self (fs : FS) (path : String) (l : LogLine) :
    (fs.appendLine path l).traces path = some ((fs.traces path).getD [] ++ [l]) := by
  simp [FS.appendLine]

lemma appendLine_traces_other (fs : FS) (path q : String) (l : LogLine) (h : q ≠ path) :
    (fs.appendLine path l).traces q = fs.traces q := by
  simp [FS.appendLine, h]

lemma log_step_run (ld imd sid path : String) (k : Nat) (fs : FS) (inp : StepInput) :
    (log_step ⟨ld, imd, some sid, some path, k⟩ fs inp).1 =
        ⟨ld, imd, some sid, some path, k + 1⟩
  ∧ (log_step ⟨ld, imd, some sid, some path, k⟩ fs inp).2.traces path =
        some ((fs.traces path).getD [] ++ [.line (stepRecord imd sid (k + 1) inp)])
  ∧ (∀ q, q ≠ path → (log_step ⟨ld, imd, some sid, some path, k⟩ fs inp).2.traces q = fs.traces q)
  ∧ (log_step ⟨ld, imd, some sid, some path, k⟩ fs inp).2.images =
        fs.images ++ (match savedImage? inp.screenshot with
          | some img => [(savedImagePath imd sid (k + 1), img)]
          | none => []) := by
  cases hshot : inp.screenshot with
  | none =>
    refine ⟨rfl, ?_, ?_, ?_⟩ <;>
      simp [log_step, hshot, _write_log, FS.appendLine, stepRecord, stepImageResult,
            savedImage?, step_message]
    intro q hq
    simp [hq]
  | pil img =>
    cases hsav : img.savable <;>
      refine ⟨rfl, ?_, ?_, ?_⟩ <;>
        simp [log_step, hshot, _save_image, hsav, _write_log, FS.appendLine, FS.writeImage,
              stepRecord, stepImageResult, savedImage?, savedImagePath, step_message, pathJoin] <;>
        intro q hq <;> simp [hq]
  | b64 dec img =>
    cases dec <;> cases hsav : img.savable <;>
      refine ⟨rfl, ?_, ?_, ?_⟩ <;>
        simp [log_step, hshot, _save_image, hsav, _write_log, FS.appendLine, FS.writeImage,
              stepRecord, stepImageResult, savedImage?, savedImagePath, step_message, pathJoin] <;>
        intro q hq <;> simp [hq]

lemma runSteps_run (ld imd sid path : String) :
    ∀ (inputs : List StepInput) (k : Nat) (fs : FS) (cur : List LogLine),
      fs.traces path = some cur →
      (runSteps ⟨ld, imd, some sid, some path, k⟩ fs inputs).1 =
          ⟨ld, imd, some sid, some path, k + inputs.length⟩
      ∧ (runSteps ⟨ld, imd, some sid, some path, k⟩ fs inputs).2.traces path =
          some (cur ++ stepLines imd sid k inputs)
      ∧ (∀ q, q ≠ path →
          (runSteps ⟨ld, imd, some sid, some path, k⟩ fs inputs).2.traces q = fs.traces q)
      ∧ (runSteps ⟨ld, imd, some sid, some path, k⟩ fs inputs).2.images =
          fs.images ++ stepImages imd sid k inputs := by
  intro inputs
  induction inputs with
  | nil =>
    intro k fs cur hcur
    refine ⟨rfl, ?_, fun q _ => rfl, by simp [stepImages, runSteps]⟩
    simp [runSteps, stepLines, hcur]
  | cons inp rest ih =>
    intro k fs cur hcur
    obtain ⟨h1, h2, h3, h4⟩ := log_step_run ld imd sid path k fs inp
    rw [hcur] at h2
    simp only [Option.getD_some] at h2
    have hrun : runSteps ⟨ld, imd, some sid, some path, k⟩ fs (inp :: rest) =
        runSteps (log_step ⟨ld, imd, some sid, some path, k⟩ fs inp).1
          (log_step ⟨ld, imd, some sid, some path, k⟩ fs inp).2 rest := rfl
    rw [hrun, h1]
    obtain ⟨g1, g2, g3, g4⟩ :=
      ih (k + 1) (log_step ⟨ld, imd, some sid, some path, k⟩ fs inp).2
        (cur ++ [.line (stepRecord imd sid (k + 1) inp)]) h2
    refine ⟨?_, ?_, ?_, ?_⟩
    · rw [g1]; congr 1; rw [List.length_cons]; omega
    · rw [g2, stepLines, List.append_assoc]
      rfl
    · intro q hq
      rw [g3 q hq, h3 q hq]
    · rw [g4, h4, stepImages, List.append_assoc]

/-- C1: for every session and every N ≥ 0, calling StartSession, then
LogStep N times, then EndSession with a non-empty final message, and
then ReadSessionLogs on the returned session id, yields exactly N+2
records in write order: first a session_start record, then the N step
records in the order logged, then a session_end record.  (The
freshness hypothesis models the uniqueness of the uuid4 session id: no
log file with its name exists yet.) -/
theorem c1_session_read_roundtrip (st0 : LoggerSt) (fs0 : FS)
    (sid task model_name : String) (extra : Option Json) (ts0 : String)
    (inputs : List StepInput) (final_message tsEnd : String)
    (hfresh : fs0.traces (pathJoin st0.log_dir (sid ++ ".jsonl")) = none)
    (hmsg : final_message ≠ "") :
    read_session_logs
        (runFullSession st0 fs0 sid task model_name extra ts0 inputs final_message tsEnd).2.2
        st0.log_dir
        (runFullSession st0 fs0 sid task model_name extra ts0 inputs final_message tsEnd).1 =
      sessionStartRecord sid task model_name extra ts0 ::
        (stepRecords st0.image_dir sid 0 inputs ++
          [sessionEndRecord sid final_message tsEnd])
  ∧ (read_session_logs
        (runFullSession st0 fs0 sid task model_name extra ts0 inputs final_message tsEnd).2.2
        st0.log_dir
        (runFullSession st0 fs0 sid task model_name extra ts0 inputs final_message tsEnd).1).length =
      inputs.length + 2 := by
  have hstart : start_session st0 fs0 sid task model_name extra ts0 =
      (sid, ⟨st0.log_dir, st0.image_dir, some sid,
             some (pathJoin st0.log_dir (sid ++ ".jsonl")), 0⟩,
       FS.appendLine fs0 (pathJoin st0.log_dir (sid ++ ".jsonl"))
         (.line (sessionStartRecord sid task model_name extra ts0))) := rfl
  have hfs1 : (FS.appendLine fs0 (pathJoin st0.log_dir (sid ++ ".jsonl"))
      (.line (sessionStartRecord sid task model_name extra ts0))).traces
      (pathJoin st0.log_dir (sid ++ ".jsonl")) =
      some [.line (sessionStartRecord sid task model_name extra ts0)] := by
    simp [FS.appendLine, hfresh]
  obtain ⟨h1, h2, h3, h4⟩ :=
    runSteps_run st0.log_dir st0.image_dir sid (pathJoin st0.log_dir (sid ++ ".jsonl"))
      inputs 0
      (FS.appendLine fs0 (pathJoin st0.log_dir (sid ++ ".jsonl"))
        (.line (sessionStartRecord sid task model_name extra ts0)))
      [.line (sessionStartRecord sid task model_name extra ts0)] hfs1
  have hend : ∀ fs : FS,
      end_session ⟨st0.log_dir, st0.image_dir, some sid,
        some (pathJoin st0.log_dir (sid ++ ".jsonl")), 0 + inputs.length⟩ fs
        final_message tsEnd =
      (⟨st0.log_dir, st0.image_dir, none, none, 0⟩,
       FS.appendLine fs (pathJoin st0.log_dir (sid ++ ".jsonl"))
         (.line (sessionEndRecord sid final_message tsEnd))) := by
    intro fs
    simp [end_session, hmsg, _write_log, sessionEndRecord]
  have hread : read_session_logs
      (runFullSession st0 fs0 sid task model_name extra ts0 inputs final_message tsEnd).2.2
      st0.log_dir
      (runFullSession st0 fs0 sid task model_name extra ts0 inputs final_message tsEnd).1 =
      readLines (([.line (sessionStartRecord sid task model_name extra ts0)] ++
        stepLines st0.image_dir sid 0 inputs) ++
        [.line (sessionEndRecord sid final_message tsEnd)]) := by
    simp only [runFullSession, hstart]
    rw [h1, hend]
    simp only [read_session_logs, appendLine_traces_self, h2, Option.getD_some]
  rw [hread, List.append_assoc, List.singleton_append]
  have : readLines (LogLine.line (sessionStartRecord sid task model_name extra ts0) ::
      (stepLines st0.image_dir sid 0 inputs ++
        [.line (sessionEndRecord sid final_message tsEnd)])) =
      sessionStartRecord sid task model_name extra ts0 ::
        (stepRecords st0.image_dir sid 0 inputs ++
          [sessionEndRecord sid final_message tsEnd]) := by
    rw [readLines, readLines_stepLines]
    rfl
  rw [this]
  refine ⟨rfl, ?_⟩
  simp [stepRecords_length]

/-- Concrete logger construction state used by the witnesses. -/
def st0c : LoggerSt := ⟨"logs", "imgs", none, none, 0⟩

/-- Concrete step input with a savable PIL screenshot. -/
def inp1c : StepInput :=
  ⟨.pil ⟨1000, 500, true⟩, "think", some [("target", .str "button")], "tap", "", "t2"⟩

/-- Witness for C1 at a concrete one-step session. -/
theorem c1_session_read_roundtrip_witness :
    read_session_logs
        (runFullSession st0c FS.empty "s" "task" "model" none "t0" [inp1c] "done" "t3").2.2
        st0c.log_dir
        (runFullSession st0c FS.empty "s" "task" "model" none "t0" [inp1c] "done" "t3").1 =
      sessionStartRecord "s" "task" "model" none "t0" ::
        (stepRecords st0c.image_dir "s" 0 [inp1c] ++ [sessionEndRecord "s" "done" "t3"])
  ∧ (read_session_logs
        (runFullSession st0c FS.empty "s" "task" "model" none "t0" [inp1c] "done" "t3").2.2
        st0c.log_dir
        (runFullSession st0c FS.empty "s" "task" "model" none "t0" [inp1c] "done" "t3").1).length =
      [inp1c].length + 2 :=
  c1_session_read_roundtrip st0c FS.empty "s" "task" "model" none "t0" [inp1c] "done" "t3"
    rfl (by decide)

/-- C7: calling LogStep or EndSession when no session is active
performs no file writes, leaves all state unchanged, and raises no
error (both calls return the state and file system untouched; the
model functions are total, mirroring the early `return`). -/
theorem c7_no_session_noop (st : LoggerSt) (fs : FS) (inp : StepInput)
    (final_message ts : String) (h : st.session_id = none) :
    log_step st fs inp = (st, fs) ∧ end_session st fs final_message ts = (st, fs) := by
  constructor
  · rw [log_step, h]
  · rw [end_session, h]

/-- Concrete logger state with no active session (as after
`end_session`). -/
def stInactive : LoggerSt := ⟨"logs", "imgs", none, none, 0⟩

/-- Witness for C7 at a concrete inactive state. -/
theorem c7_no_session_noop_witness :
    log_step stInactive FS.empty inp1c = (stInactive, FS.empty) ∧
    end_session stInactive FS.empty "bye" "t9" = (stInactive, FS.empty) :=
  c7_no_session_noop stInactive FS.empty inp1c "bye" "t9" rfl

/-- C6: for every LogStep call within an active session where saving
or decoding the supplied screenshot fails, the step record is still
appended exactly once, with an empty string as its image reference, no
image file is written, and no error propagates to the caller (the
model function is total). -/
theorem c6_failed_image_still_logs_step (st : LoggerSt) (fs : FS) (inp : StepInput)
    (sid path : String)
    (hsid : st.session_id = some sid) (hlf : st.log_file = some path)
    (hsupplied : inp.screenshot ≠ .none)
    (hfail : savedImage? inp.screenshot = none) :
    (log_step st fs inp).1.step_count = st.step_count + 1
  ∧ (log_step st fs inp).2.images = fs.images
  ∧ (log_step st fs inp).2.traces path =
      some ((fs.traces path).getD [] ++
        [.line (logEntry (some sid) inp.timestamp (step_message "" inp))])
  ∧ (∀ q, q ≠ path → (log_step st fs inp).2.traces q = fs.traces q) := by
  obtain ⟨ld, imd, s, lf, k⟩ := st
  replace hsid : s = some sid := hsid
  replace hlf : lf = some path := hlf
  subst hsid; subst hlf
  obtain ⟨h1, h2, h3, h4⟩ := log_step_run ld imd sid path k fs inp
  rw [hfail] at h4
  refine ⟨by rw [h1], by rw [h4]; simp, ?_, h3⟩
  rw [h2]
  have : stepRecord imd sid (k + 1) inp =
      logEntry (some sid) inp.timestamp (step_message "" inp) := by
    rw [stepRecord, stepImageResult, hfail]
  rw [this]

/-- Concrete step input whose PIL screenshot fails to encode or save. -/
def inpBadImgc : StepInput :=
  ⟨.pil ⟨1000, 500, false⟩, "think", some [("target", .str "button")], "tap", "", "t2"⟩

/-- Concrete logger state with an active session. -/
def stActivec : LoggerSt := ⟨"logs", "imgs", some "s", some "logs/s.jsonl", 0⟩

/-- Concrete file system holding the session_start line of session
`s`, as left by `start_session`. -/
def fsActivec : FS :=
  FS.appendLine FS.empty "logs/s.jsonl"
    (.line (sessionStartRecord "s" "task" "model" none "t0"))

/-- Witness for C6 at a concrete failing screenshot. -/
theorem c6_failed_image_still_logs_step_witness :
    (log_step stActivec fsActivec inpBadImgc).1.step_count = stActivec.step_count + 1
  ∧ (log_step stActivec fsActivec inpBadImgc).2.images = fsActivec.images
  ∧ (log_step stActivec fsActivec inpBadImgc).2.traces "logs/s.jsonl" =
      some ((fsActivec.traces "logs/s.jsonl").getD [] ++
        [.line (logEntry (some "s") inpBadImgc.timestamp (step_message "" inpBadImgc))])
  ∧ (∀ q, q ≠ "logs/s.jsonl" →
      (log_step stActivec fsActivec inpBadImgc).2.traces q = fsActivec.traces q) :=
  c6_failed_image_still_logs_step stActivec fsActivec inpBadImgc "s" "logs/s.jsonl"
    rfl rfl (by decide) (by decide)

lemma stepImages_map_fst_of_saved (imd sid : String) :
    ∀ (inputs : List StepInput) (k : Nat),
      (∀ inp ∈ inputs, (savedImage? inp.screenshot).isSome) →
      (stepImages imd sid k inputs).map Prod.fst =
        (List.range inputs.length).map (fun i => savedImagePath imd sid (k + i + 1)) := by
  intro inputs
  induction inputs with
  | nil => intro k _; rfl
  | cons inp rest ih =>
    intro k h
    have hhead := h inp (List.mem_cons_self inp rest)
    obtain ⟨img, heq⟩ := Option.isSome_iff_exists.mp hhead
    have htail : ∀ x ∈ rest, (savedImage? x.screenshot).isSome :=
      fun x hx => h x (List.mem_cons_of_mem inp hx)
    rw [stepImages, heq]
    simp only [List.map_append, List.map_cons, List.map_nil, List.length_cons,
      List.range_succ_eq_map, List.map_map, List.singleton_append]
    rw [ih (k + 1) htail]
    have h0 : k + 0 + 1 = k + 1 := by omega
    rw [h0]
    congr 1
    apply List.map_congr_left
    intro i _
    simp only [Function.comp_apply]
    congr 1
    omega

lemma stepLines_length (imd sid : String) :
    ∀ (inputs : List StepInput) (k : Nat),
      (stepLines imd sid k inputs).length = inputs.length := by
  intro inputs
  induction inputs with
  | nil => intro k; rfl
  | cons inp rest ih => intro k; simp [stepLines, ih]

lemma stepImages_map_fst (imd sid : String) :
    ∀ (inputs : List StepInput) (k : Nat),
      (stepImages imd sid k inputs).map Prod.fst =
        (stepImageIndices k inputs).map (savedImagePath imd sid) := by
  intro inputs
  induction inputs with
  | nil => intro k; rfl
  | cons inp rest ih =>
    intro k
    rw [stepImages, stepImageIndices]
    cases heq : savedImage? inp.screenshot with
    | none => simp [heq, ih]
    | some img => simp [heq, ih]

lemma stepImageIndices_lt :
    ∀ (inputs : List StepInput) (k m : Nat), m ∈ stepImageIndices k inputs → k < m := by
  intro inputs
  induction inputs with
  | nil => intro k m hm; simp [stepImageIndices] at hm
  | cons inp rest ih =>
    intro k m hm
    rw [stepImageIndices] at hm
    rcases List.mem_append.mp hm with h1 | h2
    · cases hsome : savedImage? inp.screenshot with
      | some img => rw [hsome] at h1; simp at h1; omega
      | none => rw [hsome] at h1; simp at h1
    · have := ih (k + 1) m h2
      omega

lemma stepImageIndices_pairwise :
    ∀ (inputs : List StepInput) (k : Nat),
      (stepImageIndices k inputs).Pairwise (· < ·) := by
  intro inputs
  induction inputs with
  | nil => intro k; simp [stepImageIndices]
  | cons inp rest ih =>
    intro k
    rw [stepImageIndices]
    cases hsome : savedImage? inp.screenshot with
    | none => simpa using ih (k + 1)
    | some img =>
      rw [List.singleton_append, List.pairwise_cons]
      exact ⟨fun m hm => by have := stepImageIndices_lt rest (k + 1) m hm; omega,
             ih (k + 1)⟩

/-- C5: for all N ≥ 0, calling LogStep N times between StartSession
and EndSession, each time supplying a screenshot that saves
successfully, produces exactly N image files, each named
image_dir/sid_step_n.jpeg (`savedImagePath`) with the step indices n
strictly increasing starting at 1.  (The `hcur` hypothesis says the
session's log file exists, as `start_session` guarantees.) -/
theorem c5_image_files_per_step (ld imd sid path : String) (fs : FS)
    (cur : List LogLine) (hcur : fs.traces path = some cur)
    (inputs : List StepInput)
    (hsaved : ∀ inp ∈ inputs, (savedImage? inp.screenshot).isSome) :
    ((runSteps ⟨ld, imd, some sid, some path, 0⟩ fs inputs).2.images).map Prod.fst =
      fs.images.map Prod.fst ++
        (List.range inputs.length).map (fun i => savedImagePath imd sid (i + 1))
  ∧ ((runSteps ⟨ld, imd, some sid, some path, 0⟩ fs inputs).2.images).length =
      fs.images.length + inputs.length := by
  obtain ⟨-, -, -, h4⟩ := runSteps_run ld imd sid path inputs 0 fs cur hcur
  have hmap := stepImages_map_fst_of_saved imd sid inputs 0 hsaved
  have hzero : (List.range inputs.length).map (fun i => savedImagePath imd sid (0 + i + 1)) =
      (List.range inputs.length).map (fun i => savedImagePath imd sid (i + 1)) := by
    apply List.map_congr_left
    intro i _
    congr 1
    omega
  constructor
  · rw [h4, List.map_append, hmap, hzero]
  · rw [h4, List.length_append]
    congr 1
    have := congrArg List.length (hmap.trans hzero)
    simpa using this

/-- Witness for C5: a two-step session (one PIL, one base64
screenshot) writes exactly the two files imgs/s_step_1.jpeg and
imgs/s_step_2.jpeg. -/
theorem c5_image_files_per_step_witness :
    ((runSteps ⟨"logs", "imgs", some "s", some "logs/s.jsonl", 0⟩ fsActivec
        [inp1c, ⟨.b64 true ⟨300, 400, true⟩, "t", none, "swipe", "", "t4"⟩]).2.images).map Prod.fst =
      fsActivec.images.map Prod.fst ++
        (List.range [inp1c, ⟨.b64 true ⟨300, 400, true⟩, "t", none, "swipe", "", "t4"⟩].length).map
          (fun i => savedImagePath "imgs" "s" (i + 1))
  ∧ ((runSteps ⟨"logs", "imgs", some "s", some "logs/s.jsonl", 0⟩ fsActivec
        [inp1c, ⟨.b64 true ⟨300, 400, true⟩, "t", none, "swipe", "", "t4"⟩]).2.images).length =
      fsActivec.images.length +
        [inp1c, ⟨.b64 true ⟨300, 400, true⟩, "t", none, "swipe", "", "t4"⟩].length :=
  c5_image_files_per_step "logs" "imgs" "s" "logs/s.jsonl" fsActivec
    [.line (sessionStartRecord "s" "task" "model" none "t0")] rfl
    [inp1c, ⟨.b64 true ⟨300, 400, true⟩, "t", none, "swipe", "", "t4"⟩] (by decide)

/-- C10: invariant of the Session Store.  Starting from the state
`start_session` leaves (step counter 0, log file existing with content
`cur`), after any sequence of LogStep calls the in-memory step counter
equals the number of step records appended since the session started;
each image file written by the call numbered n carries index n (the
counter value at that call); and the written image indices are
strictly increasing, with gaps exactly at the steps whose screenshot
was absent or failed to save. -/
theorem c10_step_counter_invariant (ld imd sid path : String) (fs : FS)
    (cur : List LogLine) (hcur : fs.traces path = some cur)
    (inputs : List StepInput) :
    (runSteps ⟨ld, imd, some sid, some path, 0⟩ fs inputs).1.step_count = inputs.length
  ∧ (runSteps ⟨ld, imd, some sid, some path, 0⟩ fs inputs).2.traces path =
      some (cur ++ stepLines imd sid 0 inputs)
  ∧ (stepLines imd sid 0 inputs).length = inputs.length
  ∧ (runSteps ⟨ld, imd, some sid, some path, 0⟩ fs inputs).2.images =
      fs.images ++ stepImages imd sid 0 inputs
  ∧ (stepImages imd sid 0 inputs).map Prod.fst =
      (stepImageIndices 0 inputs).map (savedImagePath imd sid)
  ∧ (stepImageIndices 0 inputs).Pairwise (· < ·) := by
  obtain ⟨h1, h2, -, h4⟩ := runSteps_run ld imd sid path inputs 0 fs cur hcur
  refine ⟨?_, h2, stepLines_length imd sid inputs 0, h4,
    stepImages_map_fst imd sid inputs 0, stepImageIndices_pairwise inputs 0⟩
  rw [h1]
  simp

/-- Witness for C10 at a concrete three-step run (screenshot saved,
screenshot failing, screenshot absent): indices 1 is written, 2 and 3
are consumed without files. -/
theorem c10_step_counter_invariant_witness :
    (runSteps ⟨"logs", "imgs", some "s", some "logs/s.jsonl", 0⟩ fsActivec
        [inp1c, inpBadImgc, ⟨.none, "t", none, "wait", "", "t5"⟩]).1.step_count =
      [inp1c, inpBadImgc, ⟨.none, "t", none, "wait", "", "t5"⟩].length
  ∧ (runSteps ⟨"logs", "imgs", some "s", some "logs/s.jsonl", 0⟩ fsActivec
        [inp1c, inpBadImgc, ⟨.none, "t", none, "wait", "", "t5"⟩]).2.traces "logs/s.jsonl" =
      some ([.line (sessionStartRecord "s" "task" "model" none "t0")] ++
        stepLines "imgs" "s" 0 [inp1c, inpBadImgc, ⟨.none, "t", none, "wait", "", "t5"⟩])
  ∧ (stepLines "imgs" "s" 0 [inp1c, inpBadImgc, ⟨.none, "t", none, "wait", "", "t5"⟩]).length =
      [inp1c, inpBadImgc, ⟨.none, "t", none, "wait", "", "t5"⟩].length
  ∧ (runSteps ⟨"logs", "imgs", some "s", some "logs/s.jsonl", 0⟩ fsActivec
        [inp1c, inpBadImgc, ⟨.none, "t", none, "wait", "", "t5"⟩]).2.images =
      fsActivec.images ++
        stepImages "imgs" "s" 0 [inp1c, inpBadImgc, ⟨.none, "t", none, "wait", "", "t5"⟩]
  ∧ (stepImages "imgs" "s" 0 [inp1c, inpBadImgc, ⟨.none, "t", none, "wait", "", "t5"⟩]).map Prod.fst =
      (stepImageIndices 0 [inp1c, inpBadImgc, ⟨.none, "t", none, "wait", "", "t5"⟩]).map
        (savedImagePath "imgs" "s")
  ∧ (stepImageIndices 0 [inp1c, inpBadImgc, ⟨.none, "t", none, "wait", "", "t5"⟩]).Pairwise (· < ·) :=
  c10_step_counter_invariant "logs" "imgs" "s" "logs/s.jsonl" fsActivec
    [.line (sessionStartRecord "s" "task" "model" none "t0")] rfl
    [inp1c, inpBadImgc, ⟨.none, "t", none, "wait", "", "t5"⟩]

lemma readLines_prefix_of_corrupt (rest : List LogLine) :
    ∀ pre : List LogLine, LogLine.corrupt ∉ pre →
      readLines (pre ++ .corrupt :: rest) = readLinesSkipping pre := by
  intro pre
  induction pre with
  | nil => intro _; rfl
  | cons l ls ih =>
    intro h
    have hls : LogLine.corrupt ∉ ls := fun hm => h (List.mem_cons_of_mem l hm)
    cases l with
    | blank => simp [readLines, readLinesSkipping, ih hls]
    | corrupt => simp at h
    | line j => simp [readLines, readLinesSkipping, ih hls]

/-- Concrete trace file for C2: a valid record, a corrupt line, then
another valid record, stored under session id `sess` in the default
log directory. -/
def fsC2 : FS :=
  ⟨fun p => if p = pathJoin DEFAULT_LOG_DIR ("sess" ++ ".jsonl") then
      some [.line (.num 1), .corrupt, .line (.num 2)]
    else none, []⟩

/-- C2 counterexample: on a file with a valid line after the corrupt
line, `read_session_logs` does not skip the corrupt line and continue
— it stops, returning `[1]`, whereas the claimed skip-and-continue
reading would return `[1, 2]`. -/
theorem c2_skip_without_aborting_counterexample :
    read_session_logs fsC2 DEFAULT_LOG_DIR "sess" = [.num 1]
  ∧ readLinesSkipping [.line (.num 1), .corrupt, .line (.num 2)] = [.num 1, .num 2]
  ∧ read_session_logs fsC2 DEFAULT_LOG_DIR "sess" ≠
      readLinesSkipping [.line (.num 1), .corrupt, .line (.num 2)] := by
  decide

/-- C2 amended: ReadSessionLogs parses the file line by line; the
first line that fails to parse stops the read (with a logged warning)
— lines after it are not returned — but every valid line preceding
that corrupt line is still returned. -/
theorem c2_prefix_before_corrupt_returned (fs : FS) (log_dir sid : String)
    (pre rest : List LogLine)
    (hfile : fs.traces (pathJoin log_dir (sid ++ ".jsonl")) =
      some (pre ++ .corrupt :: rest))
    (hpre : LogLine.corrupt ∉ pre) :
    read_session_logs fs log_dir sid = readLinesSkipping pre := by
  simp only [read_session_logs, hfile]
  exact readLines_prefix_of_corrupt rest pre hpre

/-- Witness for the amended C2 on the concrete file of `fsC2`. -/
theorem c2_prefix_before_corrupt_returned_witness :
    read_session_logs fsC2 DEFAULT_LOG_DIR "sess" =
      readLinesSkipping [.line (.num 1)] :=
  c2_prefix_before_corrupt_returned fsC2 DEFAULT_LOG_DIR "sess"
    [.line (.num 1)] [.line (.num 2)] rfl (by decide)

/-- Concrete trace file for C3: a valid session_start record followed
by a truncated/corrupt final line. -/
def fsC3 : FS :=
  ⟨fun p => if p = pathJoin DEFAULT_LOG_DIR ("sess" ++ ".jsonl") then
      some [.line (sessionStartRecord "sess" "task" "model" none "t0"), .corrupt]
    else none, []⟩

/-- C3 (divergence witness): `Render`'s own loader
`load_session_logs` returns `[]` on a log file whose final line is
corrupt, so the render is emptied — although the record preceding the
bad line is valid (the Session Store reader `readLines` recovers it).
This contradicts the claim that Render returns all records preceding
the bad trailing line. -/
theorem c3_render_emptied_by_corrupt_tail :
    load_session_logs fsC3 "sess" = []
  ∧ logs_to_chatbot_messages fsC3 (load_session_logs fsC3 "sess") = some []
  ∧ readLines [.line (sessionStartRecord "sess" "task" "model" none "t0"), .corrupt] =
      [sessionStartRecord "sess" "task" "model" none "t0"] := by
  decide

lemma insortDesc_perm (x : String × Nat) (l : List (String × Nat)) :
    (insortDesc x l).Perm (x :: l) := by
  induction l with
  | nil => simp [insortDesc]
  | cons y ys ih =>
    rw [insortDesc]
    by_cases hc : y.2 ≤ x.2
    · rw [if_pos hc]
    · rw [if_neg hc]
      exact (List.Perm.cons y ih).trans (List.Perm.swap x y ys)

lemma insortDesc_pairwise (x : String × Nat) (l : List (String × Nat))
    (h : l.Pairwise (fun a b => b.2 ≤ a.2)) :
    (insortDesc x l).Pairwise (fun a b => b.2 ≤ a.2) := by
  induction l with
  | nil => simp [insortDesc]
  | cons y ys ih =>
    rw [insortDesc]
    obtain ⟨hy, hys⟩ := List.pairwise_cons.mp h
    by_cases hc : y.2 ≤ x.2
    · rw [if_pos hc]
      rw [List.pairwise_cons]
      refine ⟨?_, h⟩
      intro b hb
      rcases List.mem_cons.mp hb with hb | hb
      · rw [hb]; exact hc
      · exact le_trans (hy b hb) hc
    · rw [if_neg hc]
      rw [List.pairwise_cons]
      refine ⟨?_, ih hys⟩
      intro b hb
      have hmem : b ∈ x :: ys := (insortDesc_perm x ys).subset hb
      rcases List.mem_cons.mp hmem with hb' | hb'
      · rw [hb']; omega
      · exact hy b hb'

lemma sortByMtimeDesc_perm (l : List (String × Nat)) :
    (sortByMtimeDesc l).Perm l := by
  induction l with
  | nil => simp [sortByMtimeDesc]
  | cons x xs ih =>
    rw [sortByMtimeDesc]
    exact (insortDesc_perm x (sortByMtimeDesc xs)).trans (List.Perm.cons x ih)

lemma sortByMtimeDesc_pairwise (l : List (String × Nat)) :
    (sortByMtimeDesc l).Pairwise (fun a b => b.2 ≤ a.2) := by
  induction l with
  | nil => simp [sortByMtimeDesc]
  | cons x xs ih => exact insortDesc_pairwise x (sortByMtimeDesc xs) ih

/-- C9: for every log directory state, ListAvailableSessions returns
the ids of the log files ordered by file modification time descending
(a stable descending reordering of the directory listing), truncated
to at most `limit` entries, and returns an empty sequence — not an
error — when the log directory does not exist. -/
theorem c9_available_sessions_ordering (limit : Nat) (files : List (String × Nat)) :
    get_available_sessions none limit = []
  ∧ (∃ sorted : List (String × Nat),
      sorted.Perm files ∧ sorted.Pairwise (fun a b => b.2 ≤ a.2) ∧
      get_available_sessions (some files) limit = (sorted.take limit).map Prod.fst)
  ∧ (get_available_sessions (some files) limit).length ≤ limit := by
  refine ⟨rfl,
    ⟨sortByMtimeDesc files, sortByMtimeDesc_perm files,
     sortByMtimeDesc_pairwise files, rfl⟩, ?_⟩
  rw [get_available_sessions]
  simp only [List.length_map, List.length_take]
  exact min_le_left _ _

lemma long_side_resize_longSide_le (image : Img) (L : Nat) :
    (long_side_resize image L).longSide ≤ L := by
  rw [long_side_resize]
  by_cases h : max image.width image.height > L
  · rw [if_pos h]
    by_cases hw : image.width ≥ image.height
    · rw [if_pos hw]
      have hwpos : 0 < image.width := by
        have : max image.width image.height = image.width := max_eq_left hw
        omega
      have hdiv : image.height * L / image.width ≤ L := by
        have h1 : image.height * L ≤ image.width * L := Nat.mul_le_mul_right L hw
        have h2 : image.height * L / image.width ≤ image.width * L / image.width :=
          Nat.div_le_div_right h1
        rwa [Nat.mul_div_cancel_left L hwpos] at h2
      simpa [Img.longSide] using hdiv
    · rw [if_neg hw]
      have hhpos : 0 < image.height := by
        have : max image.width image.height = image.height := max_eq_right (by omega)
        omega
      have hdiv : image.width * L / image.height ≤ L := by
        have h1 : image.width * L ≤ image.height * L :=
          Nat.mul_le_mul_right L (by omega)
        have h2 : image.width * L / image.height ≤ image.height * L / image.height :=
          Nat.div_le_div_right h1
        rwa [Nat.mul_div_cancel_left L hhpos] at h2
      simpa [Img.longSide] using hdiv
  · rw [if_neg h]
    rw [Img.longSide]
    omega

lemma long_side_resize_id_of_le (image : Img) (L : Nat)
    (h : image.longSide ≤ L) : long_side_resize image L = image := by
  rw [long_side_resize, if_neg]
  rw [Img.longSide] at h
  omega

lemma long_side_resize_aspect (image : Img) (L : Nat)
    (hw : image.width ≥ image.height) (hbig : image.longSide > L) :
    (long_side_resize image L).height * image.width ≤ image.height * L ∧
      image.height * L < ((long_side_resize image L).height + 1) * image.width := by
  rw [Img.longSide] at hbig
  rw [long_side_resize, if_pos (by omega), if_pos hw]
  have hwpos : 0 < image.width := by
    have : max image.width image.height = image.width := max_eq_left hw
    omega
  constructor
  · exact Nat.div_mul_le_self (image.height * L) image.width
  · have e := Nat.div_add_mod (image.height * L) image.width
    have hm := Nat.mod_lt (image.height * L) hwpos
    rw [Nat.mul_comm image.width (image.height * L / image.width)] at e
    rw [add_mul, one_mul]
    linarith

lemma long_side_resize_aspect_portrait (image : Img) (L : Nat)
    (hw : image.width < image.height) (hbig : image.longSide > L) :
    (long_side_resize image L).width * image.height ≤ image.width * L ∧
      image.width * L < ((long_side_resize image L).width + 1) * image.height := by
  rw [Img.longSide] at hbig
  rw [long_side_resize, if_pos (by omega), if_neg (by omega)]
  have hhpos : 0 < image.height := by omega
  constructor
  · exact Nat.div_mul_le_self (image.width * L) image.height
  · have e := Nat.div_add_mod (image.width * L) image.height
    have hm := Nat.mod_lt (image.width * L) hhpos
    rw [Nat.mul_comm image.height (image.width * L / image.height)] at e
    rw [add_mul, one_mul]
    linarith

lemma savedImagePath_ne_empty (imd sid : String) (n : Nat) :
    savedImagePath imd sid n ≠ "" := by
  rw [savedImagePath, pathJoin]
  intro h
  have hlen := congrArg String.length h
  simp only [String.length_append] at hlen
  have h1 : String.length "/" = 1 := rfl
  have h2 : String.length ".jpeg" = 5 := rfl
  have h3 : String.length "_" = 1 := rfl
  have h4 : String.length "step_" = 5 := rfl
  have h5 : String.length "" = 0 := rfl
  omega

lemma record_messages_renderable (fs : FS) (idx : Nat) (r : Json)
    (h : stepRenderable r = true) :
    record_messages fs idx r = some (stepView fs idx r) := by
  cases r with
  | null => simp [stepRenderable] at h
  | bool b => simp [stepRenderable] at h
  | num n => simp [stepRenderable] at h
  | str s => simp [stepRenderable] at h
  | arr xs => simp [stepRenderable] at h
  | obj fields =>
    simp only [stepRenderable] at h
    cases hmsg : (fields.lookup "message").getD (.obj []) with
    | obj msgFields =>
      rw [hmsg] at h
      simp only [Bool.and_eq_true] at h
      obtain ⟨h1, h2⟩ := h
      cases henv : (msgFields.lookup "environment").getD (.obj []) with
      | obj envFields =>
        cases hact : (msgFields.lookup "action").getD (.obj []) with
        | obj actFields =>
          simp only [record_messages, stepView, stepShownImage, stepEnvImage, stepThought,
            stepActionType, stepDetail, stepAction, hmsg, henv, hact]
        | null => rw [hact] at h2; simp at h2
        | bool b => rw [hact] at h2; simp at h2
        | num n => rw [hact] at h2; simp at h2
        | str s => rw [hact] at h2; simp at h2
        | arr xs => rw [hact] at h2; simp at h2
      | null => rw [henv] at h1; simp at h1
      | bool b => rw [henv] at h1; simp at h1
      | num n => rw [henv] at h1; simp at h1
      | str s => rw [henv] at h1; simp at h1
      | arr xs => rw [henv] at h1; simp at h1
    | null => rw [hmsg] at h; simp at h
    | bool b => rw [hmsg] at h; simp at h
    | num n => rw [hmsg] at h; simp at h
    | str s => rw [hmsg] at h; simp at h
    | arr xs => rw [hmsg] at h; simp at h

/-- C8: the resize step of Render never produces a long edge above the
configured bound; an image already within the bound keeps its original
dimensions; the downscaling preserves the aspect ratio up to integer
rounding in both orientations (landscape, where the width is clamped
and the height floor-rounded, and portrait, where the height is
clamped and the width floor-rounded); and a screenshot encoded and
written by LogStep, decoded via
the step record's stored image path and resized by Render, is a
decodable image (the `some`) whose long edge is within the render-time
bound of 800. -/
theorem c8_resize_bound_and_render_roundtrip
    (image : Img) (L : Nat) (st : LoggerSt) (fs : FS) (inp : StepInput)
    (sid path : String) (img : Img) (idx : Nat)
    (hsid : st.session_id = some sid) (hlf : st.log_file = some path)
    (hshot : inp.screenshot = .pil img) (hsav : img.savable = true)
    (hfresh : fs.images.lookup (savedImagePath st.image_dir sid (st.step_count + 1)) = none) :
    (long_side_resize image L).longSide ≤ L
  ∧ (image.longSide ≤ L → long_side_resize image L = image)
  ∧ (image.width ≥ image.height → image.longSide > L →
      (long_side_resize image L).height * image.width ≤ image.height * L ∧
        image.height * L < ((long_side_resize image L).height + 1) * image.width)
  ∧ (image.width < image.height → image.longSide > L →
      (long_side_resize image L).width * image.height ≤ image.width * L ∧
        image.width * L < ((long_side_resize image L).width + 1) * image.height)
  ∧ record_messages (log_step st fs inp).2 idx
      (stepRecord st.image_dir sid (st.step_count + 1) inp) =
      some (stepView (log_step st fs inp).2 idx
        (stepRecord st.image_dir sid (st.step_count + 1) inp))
  ∧ stepShownImage (log_step st fs inp).2
      (stepRecord st.image_dir sid (st.step_count + 1) inp) =
      some (image_to_base64 (long_side_resize img 800))
  ∧ (long_side_resize img 800).longSide ≤ 800 := by
  obtain ⟨ld, imd, s, lf, k⟩ := st
  replace hsid : s = some sid := hsid
  replace hlf : lf = some path := hlf
  subst hsid; subst hlf
  have him : savedImage? inp.screenshot = some img := by
    rw [hshot]; simp [savedImage?, hsav]
  have hsr : stepRenderable (stepRecord imd sid (k + 1) inp) = true := by
    simp [stepRenderable, stepRecord, logEntry, step_message, List.lookup]
  obtain ⟨-, -, -, h4⟩ := log_step_run ld imd sid path k fs inp
  rw [him] at h4
  have hne := savedImagePath_ne_empty imd sid (k + 1)
  have hlook : ((log_step ⟨ld, imd, some sid, some path, k⟩ fs inp).2.images).lookup
      (savedImagePath imd sid (k + 1)) = some img := by
    rw [h4, lookup_append_of_none _ _ _ hfresh]
    simp [List.lookup]
  refine ⟨long_side_resize_longSide_le image L,
    long_side_resize_id_of_le image L,
    long_side_resize_aspect image L,
    long_side_resize_aspect_portrait image L, ?_, ?_,
    long_side_resize_longSide_le img 800⟩
  · exact record_messages_renderable _ idx _ hsr
  · simp only [stepShownImage, stepEnvImage, stepRecord, logEntry, step_message]
    simp only [List.lookup]
    simp [stepImageResult, him, hne, hlook]

/-- Witness for C8 at concrete values: a 1600 x 900 image resized with
bound 600, and a 1000 x 500 screenshot logged in session `s` and
rendered back at bound 800. -/
theorem c8_resize_bound_and_render_roundtrip_witness :
    (long_side_resize ⟨1600, 900, true⟩ 600).longSide ≤ 600
  ∧ ((⟨1600, 900, true⟩ : Img).longSide ≤ 600 →
      long_side_resize ⟨1600, 900, true⟩ 600 = ⟨1600, 900, true⟩)
  ∧ ((⟨1600, 900, true⟩ : Img).width ≥ (⟨1600, 900, true⟩ : Img).height →
      (⟨1600, 900, true⟩ : Img).longSide > 600 →
      (long_side_resize ⟨1600, 900, true⟩ 600).height * (⟨1600, 900, true⟩ : Img).width ≤
          (⟨1600, 900, true⟩ : Img).height * 600 ∧
        (⟨1600, 900, true⟩ : Img).height * 600 <
          ((long_side_resize ⟨1600, 900, true⟩ 600).height + 1) * (⟨1600, 900, true⟩ : Img).width)
  ∧ ((⟨1600, 900, true⟩ : Img).width < (⟨1600, 900, true⟩ : Img).height →
      (⟨1600, 900, true⟩ : Img).longSide > 600 →
      (long_side_resize ⟨1600, 900, true⟩ 600).width * (⟨1600, 900, true⟩ : Img).height ≤
          (⟨1600, 900, true⟩ : Img).width * 600 ∧
        (⟨1600, 900, true⟩ : Img).width * 600 <
          ((long_side_resize ⟨1600, 900, true⟩ 600).width + 1) * (⟨1600, 900, true⟩ : Img).height)
  ∧ record_messages (log_step stActivec fsActivec inp1c).2 0
      (stepRecord stActivec.image_dir "s" (stActivec.step_count + 1) inp1c) =
      some (stepView (log_step stActivec fsActivec inp1c).2 0
        (stepRecord stActivec.image_dir "s" (stActivec.step_count + 1) inp1c))
  ∧ stepShownImage (log_step stActivec fsActivec inp1c).2
      (stepRecord stActivec.image_dir "s" (stActivec.step_count + 1) inp1c) =
      some (image_to_base64 (long_side_resize ⟨1000, 500, true⟩ 800))
  ∧ (long_side_resize ⟨1000, 500, true⟩ 800).longSide ≤ 800 :=
  c8_resize_bound_and_render_roundtrip ⟨1600, 900, true⟩ 600 stActivec fsActivec inp1c
    "s" "logs/s.jsonl" ⟨1000, 500, true⟩ 0 rfl rfl rfl rfl rfl

/-- C4 counterexample: the render can fail, and a subsequent record is
not always treated as a step view.  A first record that is not a dict
makes the header extraction raise (modelled `none`); and with a valid
dict header, a subsequent non-dict record is skipped by the
`except/continue`, producing no step view at all (only the header
message remains). -/
theorem c4_malformed_record_counterexample :
    logs_to_chatbot_messages FS.empty [Json.num 5] = none
  ∧ logs_to_chatbot_messages FS.empty [Json.obj [], Json.num 5] =
      some [{ role := "assistant", content := .header (.str "未知任务") (.str "未知模型") }] := by
  decide

lemma flatMap_record_messages_eq (fs : FS) :
    ∀ (l : List Json) (i : Nat), (∀ r ∈ l, stepRenderable r = true) →
      (l.enumFrom i).flatMap (fun pr => (record_messages fs pr.1 pr.2).getD []) =
        (l.enumFrom i).flatMap (fun pr => stepView fs pr.1 pr.2) := by
  intro l
  induction l with
  | nil => intro i _; rfl
  | cons r rest ih =>
    intro i h
    have hr := h r (List.mem_cons_self r rest)
    have ht : ∀ x ∈ rest, stepRenderable x = true :=
      fun x hx => h x (List.mem_cons_of_mem r hx)
    simp only [List.enumFrom, List.flatMap_cons]
    rw [record_messages_renderable fs i r hr, ih (i + 1) ht]
    rfl

/-- C4 amended: for every non-empty record sequence whose first record
(and its `message` and `model_config` fields, where present) are JSON
objects and whose subsequent records (and their `message`,
`environment` and `action` fields, where present) are JSON objects,
Render treats the first record as the session header regardless of its
tag, extracting `task` and `model_config.model_name` with placeholder
text substituted when absent, and treats every subsequent record —
including a session_end record — as a step view numbered 1..N by its
file position.  (A non-object first record aborts the render; a
non-object subsequent record is skipped with a warning but still
consumes its position number.) -/
theorem c4_header_and_step_views (fs : FS) (r0 : Json) (rest : List Json)
    (h0 : headerRenderable r0 = true)
    (hsteps : ∀ r ∈ rest, stepRenderable r = true) :
    logs_to_chatbot_messages fs (r0 :: rest) =
      some ({ role := "assistant", content := .header (headerTask r0) (headerModel r0) } ::
        rest.enum.flatMap (fun pr => stepView fs pr.1 pr.2)) := by
  cases r0 with
  | null => simp [headerRenderable] at h0
  | bool b => simp [headerRenderable] at h0
  | num n => simp [headerRenderable] at h0
  | str s => simp [headerRenderable] at h0
  | arr xs => simp [headerRenderable] at h0
  | obj configFields =>
    simp only [headerRenderable] at h0
    cases hmsg : (configFields.lookup "message").getD (.obj []) with
    | obj msgFields =>
      simp only [hmsg] at h0
      cases hmc : (msgFields.lookup "model_config").getD (.obj []) with
      | obj mcFields =>
        simp only [logs_to_chatbot_messages, headerTask, headerModel, hmsg, hmc]
        rw [show rest.enum = rest.enumFrom 0 from rfl,
          flatMap_record_messages_eq fs rest 0 hsteps]
      | null => rw [hmc] at h0; simp at h0
      | bool b => rw [hmc] at h0; simp at h0
      | num n => rw [hmc] at h0; simp at h0
      | str s => rw [hmc] at h0; simp at h0
      | arr xs => rw [hmc] at h0; simp at h0
    | null => rw [hmsg] at h0; simp at h0
    | bool b => rw [hmsg] at h0; simp at h0
    | num n => rw [hmsg] at h0; simp at h0
    | str s => rw [hmsg] at h0; simp at h0
    | arr xs => rw [hmsg] at h0; simp at h0

/-- Witness for the amended C4: a session_start record followed by a
session_end record renders as a header plus one step view numbered 1 —
the session_end record is treated as a step view by position. -/
theorem c4_header_and_step_views_witness :
    logs_to_chatbot_messages FS.empty
        [sessionStartRecord "s" "task" "model" none "t0",
         sessionEndRecord "s" "done" "t1"] =
      some ({ role := "assistant",
              content := .header (headerTask (sessionStartRecord "s" "task" "model" none "t0"))
                (headerModel (sessionStartRecord "s" "task" "model" none "t0")) } ::
        [sessionEndRecord "s" "done" "t1"].enum.flatMap
          (fun pr => stepView FS.empty pr.1 pr.2)) :=
  c4_header_and_step_views FS.empty (sessionStartRecord "s" "task" "model" none "t0")
    [sessionEndRecord "s" "done" "t1"] (by decide) (by decide)
